import Mathlib

/-
Verification development for the multi-engine homework-extraction pipeline
(`src/pipeline/advanced_vision_ocr.py`, `src/pipeline/validator.py`,
`src/pipeline/batch.py`, `src/bot/pii_redaction.py`, `src/bot/ocr_engine.py`).

The Python code is shallowly embedded: dataclasses become structures, floats
become exact rationals, Python truthiness of strings/options is made explicit,
exceptions become `Except String`, and external library calls (HTTP, json.loads)
are abstracted as function parameters.  The regex-based PII redactor is embedded
via a small backtracking regex engine mirroring CPython `re` semantics
(leftmost match, ordered alternation, greedy quantifiers, IGNORECASE).
-/

namespace SekolahKPM

/-! ## Data model (`advanced_vision_ocr.py`)

`HomeworkExtraction` mirrors the dataclass at `advanced_vision_ocr.py:29`.
`confidence: float` is embedded as an exact rational.  `extraction_metadata`
is a `Dict[str, Any]` in Python; the merge only ever stores the keys
`engines_used` and `vote_counts`, which we give as a typed record. -/

/-- One entry of `HomeworkExtraction.assignments`: the engines return JSON
dicts with keys `task`, `page_numbers`, `questions` (see the extraction
prompt); `_merge_assignments` reads only `a.get("task", "")`. -/
structure Assignment where
  task : String := ""
  page_numbers : String := ""
  questions : String := ""
deriving DecidableEq, Repr

/-- The `vote_counts` sub-dict stored by `_ensemble_merge`. -/
structure VoteCounts where
  subject : Nat := 0
  title : Nat := 0
  description : Nat := 0
deriving DecidableEq, Repr

/-- The `extraction_metadata` dict as populated by `_ensemble_merge`
(`advanced_vision_ocr.py:492`). -/
structure ExtractionMetadata where
  engines_used : List String := []
  vote_counts : VoteCounts := {}
deriving DecidableEq, Repr

/-- `HomeworkExtraction` dataclass (`advanced_vision_ocr.py:29`).  Defaults
match the dataclass defaults.  Note: the ensemble merge assigns the result of
`_vote_field` (a `str`, possibly `""`) to the `Optional[str]` fields `due_date`
and `estimated_time`; we embed that as `some` of the voted string, `""` being
the falsy value. -/
structure HomeworkExtraction where
  subject : String := ""
  title : String := ""
  description : String := ""
  due_date : Option String := none
  due_date_normalized : Option String := none
  assignments : List Assignment := []
  materials_needed : List String := []
  estimated_time : Option String := none
  priority : String := "normal"
  raw_text : String := ""
  confidence : ℚ := 0
  extraction_metadata : ExtractionMetadata := {}
deriving DecidableEq, Repr

/-- `VisionOCRResult` dataclass (`advanced_vision_ocr.py:46`), without the
unused `image_quality_score`. -/
structure VisionOCRResult where
  text : String
  structured : HomeworkExtraction
  confidence : ℚ
  engine : String
  processing_time_ms : ℚ
deriving DecidableEq, Repr

/-- One element of the `valid_results` list handed to `_ensemble_merge`:
`(engine_name, raw_text, extraction)` (`advanced_vision_ocr.py:449`). -/
abbrev EngineOutput := String × String × HomeworkExtraction

/-! ## Ensemble merge helpers (`EnsembleVisionOCR`, `advanced_vision_ocr.py:453-560`) -/

/-- ASCII lowercase of a character (the effect of Python `str.lower` on the
ASCII text handled here). -/
def pyLower (c : Char) : Char :=
  if 'A' ≤ c ∧ c ≤ 'Z' then Char.ofNat (c.toNat + 32) else c

/-- Python `str.lower` on ASCII text. -/
def strToLower (s : String) : String := String.mk (s.toList.map pyLower)

/-- Key list of the Python `Counter(values)` built by `_vote_field`: the
distinct values in first-occurrence order (Python dicts preserve insertion
order, and a `Counter` inserts each key at its first occurrence). -/
def firstOccs : List String → List String
  | [] => []
  | v :: rest => v :: (firstOccs rest).filter (fun w => w ≠ v)

/-- The scan performed by `Counter(values).most_common(1)`: walk the counter
keys keeping the current best, replacing it only on a strictly greater count
(`heapq.nlargest` is stable, so ties keep the earlier key). -/
def pickMostCommon (values : List String) : List String → String → String
  | [], best => best
  | v :: ks, best =>
      pickMostCommon values ks (if values.count best < values.count v then v else best)

/-- `EnsembleVisionOCR._vote_field` (`advanced_vision_ocr.py:510`): most common
value of `values`, ties broken by first occurrence; `""` on an empty list. -/
def voteField (values : List String) : String :=
  match firstOccs values with
  | [] => ""
  | k :: ks => pickMostCommon values ks k

/-- `EnsembleVisionOCR._vote_longest` (`advanced_vision_ocr.py:517`):
`max(values, key=len)`; Python `max` keeps the first maximal element. -/
def voteLongest (values : List String) : String :=
  match values with
  | [] => ""
  | v :: vs => vs.foldl (fun best w => if best.length < w.length then w else best) v

/-- `EnsembleVisionOCR._extract_first` (`advanced_vision_ocr.py:523`): first
truthy value (`None` and `""` are falsy). -/
def extractFirst : List (Option String) → Option String
  | [] => none
  | some s :: vs => if s = "" then extractFirst vs else some s
  | none :: vs => extractFirst vs

/-- `EnsembleVisionOCR._merge_assignments` (`advanced_vision_ocr.py:530`):
union de-duplicated by the (truthy) `task` field, first seen wins. -/
def mergeAssignments (assignment_lists : List (List Assignment)) : List Assignment :=
  (assignment_lists.flatten.foldl
    (fun (st : List String × List Assignment) a =>
      if a.task ≠ "" ∧ a.task ∉ st.1 then (st.1 ++ [a.task], st.2 ++ [a]) else st)
    ([], [])).2

/-- `EnsembleVisionOCR._unique_list` (`advanced_vision_ocr.py:542`): unique
truthy items, compared case-insensitively, first-seen casing and order kept. -/
def uniqueList (items : List String) : List String :=
  (items.foldl
    (fun (st : List String × List String) item =>
      if item ≠ "" ∧ strToLower item ∉ st.1 then (st.1 ++ [strToLower item], st.2 ++ [item]) else st)
    ([], [])).2

/-- The `priority_order` list of `_vote_priority` (`advanced_vision_ocr.py:556`). -/
def priorityOrder : List String := ["urgent", "high", "normal", "low"]

/-- `EnsembleVisionOCR._vote_priority` (`advanced_vision_ocr.py:552`): first
element of the fixed precedence list present among the inputs; `"normal"` on
an empty input list or when no precedence value occurs. -/
def votePriority (priorities : List String) : String :=
  if priorities.isEmpty then "normal"
  else
    match priorityOrder.find? (fun p => priorities.contains p) with
    | some p => p
    | none => "normal"

/-- Candidate list `[r[2].subject for r in results if r[2].subject]`
(`advanced_vision_ocr.py:472`). -/
def subjectCandidates (results : List EngineOutput) : List String :=
  (results.map (fun r => r.2.2.subject)).filter (fun s => s ≠ "")

/-- Candidate list for `title` (`advanced_vision_ocr.py:473`). -/
def titleCandidates (results : List EngineOutput) : List String :=
  (results.map (fun r => r.2.2.title)).filter (fun s => s ≠ "")

/-- Candidate list for `description` (`advanced_vision_ocr.py:474`). -/
def descriptionCandidates (results : List EngineOutput) : List String :=
  (results.map (fun r => r.2.2.description)).filter (fun s => s ≠ "")

/-- Candidate list `[r[2].due_date for r in results if r[2].due_date]`
(`advanced_vision_ocr.py:475`): `Optional[str]` truthiness drops both `None`
and `""`. -/
def dueDateCandidates (results : List EngineOutput) : List String :=
  results.filterMap (fun r =>
    match r.2.2.due_date with
    | some s => if s = "" then none else some s
    | none => none)

/-- Candidate list for `estimated_time` (`advanced_vision_ocr.py:488`). -/
def estimatedTimeCandidates (results : List EngineOutput) : List String :=
  results.filterMap (fun r =>
    match r.2.2.estimated_time with
    | some s => if s = "" then none else some s
    | none => none)

/-- The `N > 1` branch of `EnsembleVisionOCR._ensemble_merge`
(`advanced_vision_ocr.py:471-508`), as a total function of the full result
list. -/
def mergeMany (results : List EngineOutput) : VisionOCRResult :=
  let subjects := subjectCandidates results
  let titles := titleCandidates results
  let descriptions := descriptionCandidates results
  let merged : HomeworkExtraction :=
    { subject := voteField subjects
      title := voteField titles
      description := voteLongest descriptions
      due_date := some (voteField (dueDateCandidates results))
      due_date_normalized := extractFirst (results.map (fun r => r.2.2.due_date_normalized))
      assignments := mergeAssignments (results.map (fun r => r.2.2.assignments))
      materials_needed := uniqueList (results.flatMap (fun r => r.2.2.materials_needed))
      estimated_time := some (voteField (estimatedTimeCandidates results))
      priority := votePriority (results.map (fun r => r.2.2.priority))
      raw_text := String.intercalate "\n\n"
        (results.map (fun r => "[" ++ r.1 ++ "]: " ++ r.2.1))
      confidence := min 0.95 (0.8 + 0.1 * (results.length : ℚ))
      extraction_metadata :=
        { engines_used := results.map (fun r => r.1)
          vote_counts :=
            { subject := subjects.length
              title := titles.length
              description := descriptions.length } } }
  { text := merged.description
    structured := merged
    confidence := merged.confidence
    engine := "ensemble(" ++ String.intercalate "," (results.map (fun r => r.1)) ++ ")"
    processing_time_ms := 0 }

/-- `EnsembleVisionOCR._ensemble_merge` (`advanced_vision_ocr.py:453`):
raises on an empty result list, passes a single result through unchanged,
and reconciles two or more results field by field. -/
def ensembleMerge (results : List EngineOutput) : Except String VisionOCRResult :=
  match results with
  | [] => .error "All engines failed"
  | [(name, raw_text, extraction)] =>
      .ok { text := raw_text
            structured := extraction
            confidence := extraction.confidence
            engine := name
            processing_time_ms := 0 }
  | r1 :: r2 :: rest => .ok (mergeMany (r1 :: r2 :: rest))

/-! ## Lemmas about the plurality vote -/

theorem mem_firstOccs {x : String} : ∀ {l : List String}, x ∈ firstOccs l ↔ x ∈ l := by
  intro l
  induction l with
  | nil => simp [firstOccs]
  | cons v rest ih =>
    simp only [firstOccs, List.mem_cons, List.mem_filter, ih]
    constructor
    · rintro (h | ⟨h, _⟩) <;> simp [h]
    · rintro (h | h)
      · exact Or.inl h
      · by_cases hv : x = v
        · exact Or.inl hv
        · exact Or.inr ⟨h, by simpa using hv⟩

theorem count_le_pickMostCommon (values : List String) :
    ∀ (ks : List String) (best : String),
      values.count best ≤ values.count (pickMostCommon values ks best) ∧
      ∀ v ∈ ks, values.count v ≤ values.count (pickMostCommon values ks best) := by
  intro ks
  induction ks with
  | nil => intro best; exact ⟨le_rfl, by simp⟩
  | cons k ks ih =>
    intro best
    simp only [pickMostCommon]
    by_cases h : values.count best < values.count k
    · rw [if_pos h]
      refine ⟨le_trans h.le (ih k).1, ?_⟩
      intro v hv
      rcases List.mem_cons.mp hv with hvk | hv
      · rw [hvk]; exact (ih k).1
      · exact (ih k).2 v hv
    · rw [if_neg h]
      refine ⟨(ih best).1, ?_⟩
      intro v hv
      rcases List.mem_cons.mp hv with hvk | hv
      · rw [hvk]; exact le_trans (not_lt.mp h) (ih best).1
      · exact (ih best).2 v hv

theorem find?_pickMostCommon (values : List String) :
    ∀ (ks : List String) (best : String),
      (best :: ks).find?
          (fun v => values.count v == values.count (pickMostCommon values ks best))
        = some (pickMostCommon values ks best) := by
  intro ks
  induction ks with
  | nil =>
    intro best
    simp [pickMostCommon, List.find?]
  | cons k ks ih =>
    intro best
    simp only [pickMostCommon]
    by_cases h : values.count best < values.count k
    · rw [if_pos h]
      have hlt : values.count best < values.count (pickMostCommon values ks k) :=
        lt_of_lt_of_le h (count_le_pickMostCommon values ks k).1
      rw [List.find?_cons_of_neg _ (by simpa using Nat.ne_of_lt hlt)]
      exact ih k
    · rw [if_neg h]
      have hIH := ih best
      by_cases hb : values.count best = values.count (pickMostCommon values ks best)
      · have hbest : best = pickMostCommon values ks best := by
          rw [List.find?_cons_of_pos _ (by simpa using hb)] at hIH
          exact Option.some.inj hIH
        rw [List.find?_cons_of_pos _ (by simpa using hb)]
        exact congrArg some hbest
      · rw [List.find?_cons_of_neg _ (by simpa using hb)]
        have hk : values.count k ≠ values.count (pickMostCommon values ks best) := by
          intro he
          exact hb (le_antisymm (count_le_pickMostCommon values ks best).1
            (he ▸ not_lt.mp h))
        rw [List.find?_cons_of_neg _ (by simpa using hk)]
        rw [List.find?_cons_of_neg _ (by simpa using hb)] at hIH
        exact hIH

theorem firstOccs_ne_nil {values : List String} (h : values ≠ []) :
    firstOccs values ≠ [] := by
  cases values with
  | nil => exact absurd rfl h
  | cons v rest => simp [firstOccs]

/-- C3: for every non-empty candidate list, `_vote_field` returns a candidate
of maximal multiplicity, and among the values tied at the maximal
multiplicity it returns the one whose first occurrence is earliest (it is the
first key of the `Counter`, i.e. of `firstOccs`, achieving the maximal
count); consequently two engines disagreeing on `due_date` merge to the
first engine's value, and `extraction_metadata.engines_used` lists both
engine names in order. -/
theorem vote_field_plurality :
    (∀ values : List String, values ≠ [] →
        voteField values ∈ values ∧
        (∀ v ∈ values, values.count v ≤ values.count (voteField values)) ∧
        (firstOccs values).find?
            (fun v => values.count v == values.count (voteField values))
          = some (voteField values)) ∧
    (∀ (n1 t1 n2 t2 d1 d2 : String) (x1 x2 : HomeworkExtraction),
        x1.due_date = some d1 → x2.due_date = some d2 →
        d1 ≠ "" → d2 ≠ "" → d1 ≠ d2 →
        (mergeMany [(n1, t1, x1), (n2, t2, x2)]).structured.due_date = some d1 ∧
        (mergeMany [(n1, t1, x1), (n2, t2, x2)]).structured.extraction_metadata.engines_used
          = [n1, n2]) := by
  constructor
  · intro values hne
    cases hvo : firstOccs values with
    | nil => exact absurd hvo (firstOccs_ne_nil hne)
    | cons k ks =>
      have hres : voteField values = pickMostCommon values ks k := by
        simp [voteField, hvo]
      have hfind := find?_pickMostCommon values ks k
      refine ⟨?_, ?_, ?_⟩
      · have hmem : voteField values ∈ k :: ks := by
          rw [hres]; exact List.mem_of_find?_eq_some hfind
        exact mem_firstOccs.mp (hvo ▸ hmem)
      · intro v hv
        have hv' : v ∈ firstOccs values := mem_firstOccs.mpr hv
        rw [hvo] at hv'
        rw [hres]
        rcases List.mem_cons.mp hv' with rfl | hv'
        · exact (count_le_pickMostCommon values ks v).1
        · exact (count_le_pickMostCommon values ks k).2 v hv'
      · rw [hres]; exact hfind
  · intro n1 t1 n2 t2 d1 d2 x1 x2 h1 h2 hd1 hd2 hne
    have hcand : dueDateCandidates [(n1, t1, x1), (n2, t2, x2)] = [d1, d2] := by
      simp [dueDateCandidates, h1, h2, hd1, hd2]
    have hvote : voteField [d1, d2] = d1 := by
      have hfo : firstOccs [d1, d2] = [d1, d2] := by
        simp [firstOccs, hne.symm]
      have hc1 : List.count d1 [d1, d2] = 1 := by
        simp [List.count_cons, hne.symm]
      have hc2 : List.count d2 [d1, d2] = 1 := by
        simp [List.count_cons, hne]
      simp [voteField, hfo, pickMostCommon, hc1, hc2]
    constructor
    · show some (voteField (dueDateCandidates [(n1, t1, x1), (n2, t2, x2)])) = some d1
      rw [hcand, hvote]
    · rfl

/-- C3 witness: two engines agreeing on subject/title but disagreeing on the
due date merge to the first engine's date, and a concrete plurality vote. -/
theorem vote_field_plurality_witness :
    (voteField ["2024-12-25", "2024-12-26"] ∈ (["2024-12-25", "2024-12-26"] : List String) ∧
     (∀ v ∈ (["2024-12-25", "2024-12-26"] : List String),
        List.count v ["2024-12-25", "2024-12-26"]
          ≤ List.count (voteField ["2024-12-25", "2024-12-26"]) ["2024-12-25", "2024-12-26"]) ∧
     (firstOccs ["2024-12-25", "2024-12-26"]).find?
         (fun v => List.count v ["2024-12-25", "2024-12-26"]
             == List.count (voteField ["2024-12-25", "2024-12-26"]) ["2024-12-25", "2024-12-26"])
       = some (voteField ["2024-12-25", "2024-12-26"])) ∧
    ((mergeMany [("together", "ta", { due_date := some "2024-12-25" }),
                 ("gemini", "tb", { due_date := some "2024-12-26" })]).structured.due_date
        = some "2024-12-25" ∧
     (mergeMany [("together", "ta", { due_date := some "2024-12-25" }),
                 ("gemini", "tb", { due_date := some "2024-12-26" })]).structured.extraction_metadata.engines_used
        = ["together", "gemini"]) :=
  ⟨vote_field_plurality.1 ["2024-12-25", "2024-12-26"] (by decide),
   vote_field_plurality.2 "together" "ta" "gemini" "tb" "2024-12-25" "2024-12-26"
     { due_date := some "2024-12-25" } { due_date := some "2024-12-26" }
     rfl rfl (by decide) (by decide) (by decide)⟩

/-- C1: merging `N > 1` engine results yields confidence exactly
`min(0.95, 0.8 + 0.1 * N)` (line 491 of `advanced_vision_ocr.py`), which
never exceeds `0.95` and is at least the confidence of every input whose own
confidence is at most `0.95` (the adapters only ever produce `0.9` or `0.7`). -/
theorem merge_confidence_formula (results : List EngineOutput)
    (h2 : 2 ≤ results.length) :
    ∃ v, ensembleMerge results = .ok v ∧
      v.structured.confidence = min 0.95 (0.8 + 0.1 * (results.length : ℚ)) ∧
      v.confidence = min 0.95 (0.8 + 0.1 * (results.length : ℚ)) ∧
      v.confidence ≤ 0.95 ∧
      (∀ r ∈ results, r.2.2.confidence ≤ 0.95 → r.2.2.confidence ≤ v.confidence) := by
  match results with
  | r1 :: r2 :: rest =>
    have hcap : min 0.95 (0.8 + 0.1 * ((r1 :: r2 :: rest).length : ℚ)) = 0.95 := by
      apply min_eq_left
      have h0 : (0 : ℚ) ≤ (rest.length : ℚ) := Nat.cast_nonneg _
      have hlen : (((r1 :: r2 :: rest).length : ℚ)) = (rest.length : ℚ) + 2 := by
        push_cast [List.length_cons]
        ring
      rw [hlen]
      nlinarith
    refine ⟨mergeMany (r1 :: r2 :: rest), rfl, rfl, rfl, ?_, ?_⟩
    · show min 0.95 (0.8 + 0.1 * ((r1 :: r2 :: rest).length : ℚ)) ≤ 0.95
      exact min_le_left _ _
    · intro r _ hr
      show r.2.2.confidence ≤ min 0.95 (0.8 + 0.1 * ((r1 :: r2 :: rest).length : ℚ))
      rw [hcap]
      exact hr

/-- C1 witness: merging two `0.9`-confidence results gives confidence `0.95`,
the exact formula value, which is at least each input confidence. -/
theorem merge_confidence_formula_witness :
    ∃ v, ensembleMerge [("together", "a", { confidence := 0.9 }),
                        ("gemini", "b", { confidence := 0.9 })] = .ok v ∧
      v.structured.confidence
        = min 0.95 (0.8 + 0.1 * ((List.length [(("together" : String), ("a" : String),
            ({ confidence := 0.9 } : HomeworkExtraction)),
            ("gemini", "b", { confidence := 0.9 })]) : ℚ)) ∧
      v.confidence
        = min 0.95 (0.8 + 0.1 * ((List.length [(("together" : String), ("a" : String),
            ({ confidence := 0.9 } : HomeworkExtraction)),
            ("gemini", "b", { confidence := 0.9 })]) : ℚ)) ∧
      v.confidence ≤ 0.95 ∧
      (∀ r ∈ [(("together" : String), ("a" : String),
            ({ confidence := 0.9 } : HomeworkExtraction)),
            ("gemini", "b", { confidence := 0.9 })],
         r.2.2.confidence ≤ 0.95 → r.2.2.confidence ≤ v.confidence) :=
  merge_confidence_formula
    [("together", "a", { confidence := 0.9 }), ("gemini", "b", { confidence := 0.9 })]
    (by decide)

/-! ## Priority precedence (C2) -/

/-- Urgency ranking induced by the fixed precedence
`urgent > high > normal > low` of `_vote_priority`. -/
def urgencyRank : String → Nat
  | "urgent" => 3
  | "high" => 2
  | "normal" => 1
  | _ => 0

theorem contains_iff_mem (l : List String) (p : String) :
    l.contains p = true ↔ p ∈ l := by
  simp

/-- C2: on a non-empty list drawn from the four priority values,
`_vote_priority` returns a present value of maximal urgency under the fixed
precedence `urgent > high > normal > low`; the result of `_vote_priority`
only depends on membership, hence is invariant under permutation of the
input; and the empty input yields `"normal"`. -/
theorem vote_priority_precedence :
    votePriority [] = "normal" ∧
    (∀ l : List String, l ≠ [] → (∀ x ∈ l, x ∈ priorityOrder) →
        votePriority l ∈ l ∧ ∀ x ∈ l, urgencyRank x ≤ urgencyRank (votePriority l)) ∧
    (∀ l l' : List String, l.Perm l' → votePriority l = votePriority l') := by
  refine ⟨rfl, ?_, ?_⟩
  · intro l hne hall
    have hempty : l.isEmpty = false := by
      cases l with
      | nil => exact absurd rfl hne
      | cons a as => rfl
    by_cases hu : "urgent" ∈ l
    · have hres : votePriority l = "urgent" := by
        simp [votePriority, hempty, priorityOrder, List.find?, hu]
      rw [hres]
      refine ⟨hu, ?_⟩
      intro x hx
      have hx4 := hall x hx
      simp only [priorityOrder, List.mem_cons, List.mem_singleton,
        List.not_mem_nil, or_false] at hx4
      rcases hx4 with rfl | rfl | rfl | rfl <;> decide
    · by_cases hh : "high" ∈ l
      · have hres : votePriority l = "high" := by
          simp [votePriority, hempty, priorityOrder, List.find?, hu, hh]
        rw [hres]
        refine ⟨hh, ?_⟩
        intro x hx
        have hx4 := hall x hx
        simp only [priorityOrder, List.mem_cons, List.mem_singleton,
          List.not_mem_nil, or_false] at hx4
        rcases hx4 with rfl | rfl | rfl | rfl
        · exact absurd hx hu
        · decide
        · decide
        · decide
      · by_cases hn : "normal" ∈ l
        · have hres : votePriority l = "normal" := by
            simp [votePriority, hempty, priorityOrder, List.find?, hu, hh, hn]
          rw [hres]
          refine ⟨hn, ?_⟩
          intro x hx
          have hx4 := hall x hx
          simp only [priorityOrder, List.mem_cons, List.mem_singleton,
            List.not_mem_nil, or_false] at hx4
          rcases hx4 with rfl | rfl | rfl | rfl
          · exact absurd hx hu
          · exact absurd hx hh
          · decide
          · decide
        · have hlo : "low" ∈ l := by
            obtain ⟨x, hx⟩ := List.exists_mem_of_ne_nil l hne
            have hx4 := hall x hx
            simp only [priorityOrder, List.mem_cons, List.mem_singleton,
              List.not_mem_nil, or_false] at hx4
            rcases hx4 with rfl | rfl | rfl | rfl
            · exact absurd hx hu
            · exact absurd hx hh
            · exact absurd hx hn
            · exact hx
          have hres : votePriority l = "low" := by
            simp [votePriority, hempty, priorityOrder, List.find?, hu, hh, hn, hlo]
          rw [hres]
          refine ⟨hlo, ?_⟩
          intro x hx
          have hx4 := hall x hx
          simp only [priorityOrder, List.mem_cons, List.mem_singleton,
            List.not_mem_nil, or_false] at hx4
          rcases hx4 with rfl | rfl | rfl | rfl
          · exact absurd hx hu
          · exact absurd hx hh
          · exact absurd hx hn
          · decide
  · intro l l' hp
    by_cases hl : l = []
    · subst hl
      rw [List.Perm.eq_nil hp.symm]
    · have hl' : l' ≠ [] := by
        intro h
        exact hl (List.Perm.eq_nil (h ▸ hp))
      have he : l.isEmpty = false := by
        cases l with
        | nil => exact absurd rfl hl
        | cons a as => rfl
      have he' : l'.isEmpty = false := by
        cases l' with
        | nil => exact absurd rfl hl'
        | cons a as => rfl
      have hc : ∀ p : String, l.contains p = l'.contains p := by
        intro p
        cases hcp : l'.contains p with
        | true =>
          exact (contains_iff_mem l p).mpr (hp.mem_iff.mpr ((contains_iff_mem l' p).mp hcp))
        | false =>
          cases hcl : l.contains p with
          | false => rfl
          | true =>
            have : p ∈ l' := hp.mem_iff.mp ((contains_iff_mem l p).mp hcl)
            rw [(contains_iff_mem l' p).mpr this] at hcp
            exact absurd hcp (by simp)
      simp only [votePriority, he, he']
      rw [funext hc]

/-- C2 witness: the spec's example — results reporting
`normal`, `urgent`, `high` merge to `urgent` in any order. -/
theorem vote_priority_precedence_witness :
    (votePriority ["normal", "urgent", "high"] ∈ (["normal", "urgent", "high"] : List String) ∧
     ∀ x ∈ (["normal", "urgent", "high"] : List String),
        urgencyRank x ≤ urgencyRank (votePriority ["normal", "urgent", "high"])) ∧
    votePriority ["normal", "urgent", "high"] = votePriority ["high", "normal", "urgent"] :=
  ⟨vote_priority_precedence.2.1 ["normal", "urgent", "high"] (by decide) (by decide),
   vote_priority_precedence.2.2 ["normal", "urgent", "high"] ["high", "normal", "urgent"]
     (by decide)⟩

/-! ## Vision adapter response handling (C4)

`TogetherAIVision.extract_structured` (`advanced_vision_ocr.py:249-262`) and
`GeminiVision.extract_structured` (`advanced_vision_ocr.py:329-344`) parse the
model's reply.  `json.loads` together with `_dict_to_extraction` is abstracted
as a parameter pair `(parseJson, dictToExtraction)`: `parseJson s = none`
embeds `json.loads(s)` raising `JSONDecodeError`. -/

/-- Character-list prefix test (used to embed the literal parts of the
regular expressions). -/
def startsWithChars : List Char → List Char → Bool
  | [], _ => true
  | _ :: _, [] => false
  | p :: ps, c :: cs => p == c && startsWithChars ps cs

/-- Substring test, for stating that an error message does not carry a
given fragment. -/
def listContainsSeq (needle : List Char) : List Char → Bool
  | [] => startsWithChars needle []
  | c :: cs => startsWithChars needle (c :: cs) || listContainsSeq needle cs

/-- String containment query built on `listContainsSeq`. -/
def strContains (hay needle : String) : Bool :=
  listContainsSeq needle.toList hay.toList

/-- Python `\s` on ASCII text (the whitespace class used by the patterns). -/
def isPySpace (c : Char) : Bool :=
  c == ' ' || c == '\t' || c == '\n' || c == '\r' || c == '\x0B' || c == '\x0C'

/-- The lazy group of the Together fence search (pattern
"triple-backtick json newline, lazy dot-all group, newline triple-backtick"):
shortest run of characters before the closing `"\n```"`. -/
def fenceInner (close : List Char) : List Char → Option (List Char)
  | [] => none
  | c :: cs =>
    if startsWithChars close (c :: cs) then some []
    else
      match fenceInner close cs with
      | some inner => some (c :: inner)
      | none => none

/-- Leftmost-search part of the Together fence regex: try each start
position; at a start the literal `"```json\n"` must match and a closing
`"\n```"` must occur later, else the next start position is tried. -/
def fenceSearch : List Char → Option (List Char)
  | [] => none
  | c :: cs =>
    if startsWithChars ("```json\n".toList) (c :: cs) then
      match fenceInner ("\n```".toList) ((c :: cs).drop 8) with
      | some inner => some inner
      | none => fenceSearch cs
    else fenceSearch cs

/-- Group 1 of the `re.search` at `advanced_vision_ocr.py:257` (the fenced
JSON body), `none` when the pattern does not occur. -/
def fenceExtract (content : String) : Option String :=
  (fenceSearch content.toList).map (fun l => String.mk l)

/-- Python `str.rstrip`-like removal of trailing whitespace (the greedy `\s*`
before the closing fence in Gemini's cleanup). -/
def rstripPy (s : String) : String :=
  String.mk ((s.toList.reverse.dropWhile isPySpace).reverse)

/-- Gemini's markdown cleanup (`advanced_vision_ocr.py:332-333`):
`re.sub(r'^```json\s*', '', content)` then `re.sub(r'\s*```$', '', ...)`;
`$` matches at the end of the string or just before a final newline. -/
def geminiStrip (content : String) : String :=
  let afterLead :=
    if content.startsWith "```json" then
      String.mk ((content.toList.drop 7).dropWhile isPySpace)
    else content
  let hadNl := afterLead.endsWith "\n"
  let core := if hadNl then afterLead.dropRight 1 else afterLead
  if core.endsWith "```" then
    rstripPy (core.dropRight 3) ++ (if hadNl then "\n" else "")
  else afterLead

/-- Response handling of `TogetherAIVision.extract_structured`
(`advanced_vision_ocr.py:249-262`): parse the content as JSON; on
`JSONDecodeError` look for a markdown fence and parse its body (a second
`JSONDecodeError` there propagates); with no fence the original
`JSONDecodeError` is re-raised by the bare `raise`. -/
def togetherExtractStructured {J : Type} (parseJson : String → Option J)
    (dictToExtraction : J → String → String × HomeworkExtraction)
    (content : String) : Except String (String × HomeworkExtraction) :=
  match parseJson content with
  | some j => .ok (dictToExtraction j content)
  | none =>
    match fenceExtract content with
    | some inner =>
      match parseJson inner with
      | some j => .ok (dictToExtraction j content)
      | none => .error "json.JSONDecodeError"
    | none => .error "json.JSONDecodeError"

/-- Response handling of `GeminiVision.extract_structured`
(`advanced_vision_ocr.py:329-344`): strip a markdown fence, parse; on
`JSONDecodeError` fall back to a basic extraction with the raw content as
`description` and confidence `0.7` — never raising. -/
def geminiExtractStructured {J : Type} (parseJson : String → Option J)
    (dictToExtraction : J → String → String × HomeworkExtraction)
    (content : String) : String × HomeworkExtraction :=
  match parseJson (geminiStrip content) with
  | some j => dictToExtraction j content
  | none => (content, { description := content, raw_text := content, confidence := 0.7 })

/-- C4 counterexample: the claim quantifies over *every* vision/LLM adapter,
but `TogetherAIVision.extract_structured` re-raises `JSONDecodeError` when
the body is not parseable JSON and carries no markdown fence (the instance
`parseJson := fun _ => none` embeds `json.loads` failing on this body, as the
real `json.loads` does on `"This is not JSON"`). -/
theorem together_raises_on_malformed :
    togetherExtractStructured (J := Unit) (fun _ => none)
        (fun _ c => (c, { description := c })) "This is not JSON"
      = .error "json.JSONDecodeError" ∧
    fenceExtract "This is not JSON" = none := by
  constructor
  · rfl
  · rfl

/-- C4 amended: `GeminiVision.extract_structured` (alone among the two
adapters) never raises on a malformed body: whenever the fence-stripped
content fails to parse it returns the raw content as `description` with the
degraded confidence `0.7` (within the claimed `0.5`–`0.7` band). -/
theorem gemini_degrades_on_malformed {J : Type} (parseJson : String → Option J)
    (dictToExtraction : J → String → String × HomeworkExtraction)
    (content : String) (h : parseJson (geminiStrip content) = none) :
    geminiExtractStructured parseJson dictToExtraction content
      = (content, { description := content, raw_text := content, confidence := 0.7 }) ∧
    (geminiExtractStructured parseJson dictToExtraction content).2.confidence = 0.7 ∧
    (1/2 : ℚ) ≤ (geminiExtractStructured parseJson dictToExtraction content).2.confidence ∧
    (geminiExtractStructured parseJson dictToExtraction content).2.confidence ≤ 7/10 ∧
    (geminiExtractStructured parseJson dictToExtraction content).2.description = content := by
  refine ⟨?_, ?_, ?_, ?_, ?_⟩ <;> simp [geminiExtractStructured, h] <;> norm_num

/-- C4 amended witness: a plain-text Gemini reply that is not JSON. -/
theorem gemini_degrades_on_malformed_witness :
    geminiExtractStructured (J := Unit) (fun _ => none)
        (fun _ c => (c, { description := c })) "Sorry, I cannot read this image."
      = ("Sorry, I cannot read this image.",
         { description := "Sorry, I cannot read this image.",
           raw_text := "Sorry, I cannot read this image.", confidence := 0.7 }) ∧
    (geminiExtractStructured (J := Unit) (fun _ => none)
        (fun _ c => (c, { description := c })) "Sorry, I cannot read this image.").2.confidence
      = 0.7 ∧
    (1/2 : ℚ) ≤ (geminiExtractStructured (J := Unit) (fun _ => none)
        (fun _ c => (c, { description := c })) "Sorry, I cannot read this image.").2.confidence ∧
    (geminiExtractStructured (J := Unit) (fun _ => none)
        (fun _ c => (c, { description := c })) "Sorry, I cannot read this image.").2.confidence
      ≤ 7/10 ∧
    (geminiExtractStructured (J := Unit) (fun _ => none)
        (fun _ c => (c, { description := c })) "Sorry, I cannot read this image.").2.description
      = "Sorry, I cannot read this image." :=
  gemini_degrades_on_malformed (fun _ => none) (fun _ c => (c, { description := c }))
    "Sorry, I cannot read this image." rfl

/-! ## Fallback chain (C5)

`AdvancedVisionOCR.process_with_fallback` (`advanced_vision_ocr.py:597-620`)
and `AdvancedOCREngine._fallback_ocr` (`ocr_engine.py:910-935`).  Each
engine's call outcome for the given image is embedded as an
`Except String` value in chain order. -/

/-- `OCResult` of `ocr_engine.py` (fields used by the fallback path). -/
structure OCResult where
  text : String := ""
  confidence : ℚ := 0
  language : String := "en"
  processing_time_ms : ℚ := 0
deriving DecidableEq, Repr

/-- `AdvancedVisionOCR.process_with_fallback`: try each engine in order,
return the first success; when every engine raised, raise
`RuntimeError("All vision OCR engines failed")` (a fixed message; the caught
per-engine exceptions are only logged). -/
def processWithFallback
    (engineResponses : List (String × Except String (String × HomeworkExtraction))) :
    Except String VisionOCRResult :=
  match engineResponses with
  | [] => .error "All vision OCR engines failed"
  | (engineName, response) :: rest =>
    match response with
    | .ok (raw_text, extraction) =>
        .ok { text := raw_text
              structured := extraction
              confidence := extraction.confidence
              engine := engineName
              processing_time_ms := 0 }
    | .error _ => processWithFallback rest

/-- `AdvancedOCREngine._fallback_ocr`: same walk over the attempt list
(advanced vision → legacy vision → traditional), raising
`RuntimeError("All OCR engines failed")` when every attempt raised. -/
def fallbackOcr (attempts : List (String × Except String OCResult)) :
    Except String OCResult :=
  match attempts with
  | [] => .error "All OCR engines failed"
  | (_, response) :: rest =>
    match response with
    | .ok r => .ok r
    | .error _ => fallbackOcr rest

/-- C5 counterexample: both fallback entry points raise a *fixed-message*
`RuntimeError`; no `AllEnginesFailed` value carrying the per-engine failure
reasons exists — the raised error is identical for different underlying
engine messages and contains neither the engine names nor their messages. -/
theorem all_engines_failed_error_is_bare :
    processWithFallback
        [("together", .error "together: connection reset"), ("gemini", .error "gemini: 503")]
      = .error "All vision OCR engines failed" ∧
    processWithFallback [("together", .error "A"), ("gemini", .error "B")]
      = processWithFallback
          [("together", .error "together: connection reset"), ("gemini", .error "gemini: 503")] ∧
    strContains "All vision OCR engines failed" "together" = false ∧
    strContains "All vision OCR engines failed" "gemini" = false ∧
    strContains "All vision OCR engines failed" "connection reset" = false ∧
    fallbackOcr [("advanced_vision", .error "quota"), ("traditional", .error "no binary")]
      = .error "All OCR engines failed" ∧
    strContains "All OCR engines failed" "quota" = false := by
  refine ⟨rfl, rfl, ?_, ?_, ?_, rfl, ?_⟩ <;> decide

/-- C5 amended: when every adapter in the chain fails, both fallback entry
points raise a fatal error (with the fixed messages above) and return no
partial extraction. -/
theorem all_engines_failed_fatal :
    (∀ rs : List (String × Except String (String × HomeworkExtraction)),
        (∀ e ∈ rs, ∃ msg, e.2 = Except.error msg) →
        processWithFallback rs = .error "All vision OCR engines failed") ∧
    (∀ as : List (String × Except String OCResult),
        (∀ e ∈ as, ∃ msg, e.2 = Except.error msg) →
        fallbackOcr as = .error "All OCR engines failed") := by
  constructor
  · intro rs h
    induction rs with
    | nil => rfl
    | cons e rest ih =>
      obtain ⟨msg, hmsg⟩ := h e (List.mem_cons_self e rest)
      obtain ⟨name, resp⟩ := e
      simp only at hmsg
      rw [hmsg] at *
      simp only [processWithFallback]
      exact ih (fun e' he' => h e' (List.mem_cons_of_mem _ he'))
  · intro as h
    induction as with
    | nil => rfl
    | cons e rest ih =>
      obtain ⟨msg, hmsg⟩ := h e (List.mem_cons_self e rest)
      obtain ⟨name, resp⟩ := e
      simp only at hmsg
      rw [hmsg] at *
      simp only [fallbackOcr]
      exact ih (fun e' he' => h e' (List.mem_cons_of_mem _ he'))

/-- C5 amended witness: two failing vision engines and a failing OCR chain. -/
theorem all_engines_failed_fatal_witness :
    processWithFallback [("together", Except.error "boom-t"), ("gemini", Except.error "boom-g")]
      = .error "All vision OCR engines failed" ∧
    fallbackOcr [("traditional", Except.error "tesseract missing")]
      = .error "All OCR engines failed" :=
  ⟨all_engines_failed_fatal.1 _ (by
      intro e he
      simp only [List.mem_cons, List.not_mem_nil, or_false] at he
      rcases he with rfl | rfl
      · exact ⟨"boom-t", rfl⟩
      · exact ⟨"boom-g", rfl⟩),
   all_engines_failed_fatal.2 _ (by
      intro e he
      simp only [List.mem_cons, List.not_mem_nil, or_false] at he
      rcases he with rfl
      exact ⟨"tesseract missing", rfl⟩)⟩

/-! ## Validator (`src/pipeline/validator.py`) — C7, C8

`datetime.strptime(due_date, "%Y-%m-%d")` is embedded faithfully: CPython's
`_strptime` compiles the format to the anchored regex
`\d\d\d\d - (1[0-2]|0[1-9]|[1-9]) - (3[01]|[12]\d|0[1-9]|[1-9])` with ordered
alternation, requires the whole string to be consumed, and then the
`datetime` constructor validates the day against the month length (and
`year >= 1`).  Dates are compared through the proleptic Gregorian ordinal
(`date.toordinal`).  `datetime.now()` is embedded as a day ordinal plus a
time-of-day `nowTod` (any nonnegative value below one day). -/

/-- Numeric value of a decimal digit character. -/
def digitVal (c : Char) : Nat := c.toNat - 48

/-- Exactly four digits, as matched by the `%Y` directive. -/
def yearParse : List Char → Option (Nat × List Char)
  | a :: b :: c :: d :: rest =>
    if a.isDigit ∧ b.isDigit ∧ c.isDigit ∧ d.isDigit then
      some (1000 * digitVal a + 100 * digitVal b + 10 * digitVal c + digitVal d, rest)
    else none
  | _ => none

/-- The `%m` directive: ordered regex alternatives
`1[0-2]`, `0[1-9]`, `[1-9]`, returned as backtracking candidates. -/
def monthParses : List Char → List (Nat × List Char)
  | c1 :: c2 :: rest =>
    (if c1 = '1' ∧ ('0' ≤ c2 ∧ c2 ≤ '2') then [(10 + digitVal c2, rest)] else []) ++
    (if c1 = '0' ∧ ('1' ≤ c2 ∧ c2 ≤ '9') then [(digitVal c2, rest)] else []) ++
    (if '1' ≤ c1 ∧ c1 ≤ '9' then [(digitVal c1, c2 :: rest)] else [])
  | [c1] => if '1' ≤ c1 ∧ c1 ≤ '9' then [(digitVal c1, [])] else []
  | [] => []

/-- The `%d` directive: ordered regex alternatives
`3[01]`, `[12]\d`, `0[1-9]`, `[1-9]`. -/
def dayParses : List Char → List (Nat × List Char)
  | c1 :: c2 :: rest =>
    (if c1 = '3' ∧ (c2 = '0' ∨ c2 = '1') then [(30 + digitVal c2, rest)] else []) ++
    (if (c1 = '1' ∨ c1 = '2') ∧ c2.isDigit then [(10 * digitVal c1 + digitVal c2, rest)] else []) ++
    (if c1 = '0' ∧ ('1' ≤ c2 ∧ c2 ≤ '9') then [(digitVal c2, rest)] else []) ++
    (if '1' ≤ c1 ∧ c1 ≤ '9' then [(digitVal c1, c2 :: rest)] else [])
  | [c1] => if '1' ≤ c1 ∧ c1 ≤ '9' then [(digitVal c1, [])] else []
  | [] => []

/-- The anchored `%Y-%m-%d` match with regex backtracking: the first
month/day alternative combination that consumes the whole string wins. -/
def strptimeYmd (s : String) : Option (Nat × Nat × Nat) :=
  match yearParse s.toList with
  | none => none
  | some (y, rest1) =>
    match rest1 with
    | '-' :: rest2 =>
      (((monthParses rest2).filterMap (fun md =>
          match md.2 with
          | '-' :: rest4 =>
            (((dayParses rest4).filterMap (fun dd =>
                if dd.2 = [] then some dd.1 else none)).head?).map (fun d => (md.1, d))
          | _ => none)).head?).map (fun p => (y, p.1, p.2))
    | _ => none

/-- Gregorian leap-year test. -/
def isLeap (y : Nat) : Bool := (y % 4 == 0 && y % 100 != 0) || (y % 400 == 0)

/-- Length of a month, as enforced by the `datetime` constructor. -/
def daysInMonth (y m : Nat) : Nat :=
  if m = 2 then (if isLeap y then 29 else 28)
  else if m = 4 ∨ m = 6 ∨ m = 9 ∨ m = 11 then 30
  else 31

/-- Days before month `m` in year `y`. -/
def daysBeforeMonth (y m : Nat) : Nat :=
  let base :=
    match m with
    | 1 => 0 | 2 => 31 | 3 => 59 | 4 => 90 | 5 => 120 | 6 => 151
    | 7 => 181 | 8 => 212 | 9 => 243 | 10 => 273 | 11 => 304 | _ => 334
  if 3 ≤ m ∧ isLeap y then base + 1 else base

/-- Proleptic Gregorian ordinal, equal to Python's `date.toordinal()`
(day 1 is 0001-01-01). -/
def toOrdinal (y m d : Nat) : Nat :=
  365 * (y - 1) + (y - 1) / 4 + (y - 1) / 400 + daysBeforeMonth y m + d - (y - 1) / 100

/-- `datetime.strptime(s, "%Y-%m-%d")` succeeding and producing a valid
calendar date (the constructor rejects `year = 0` and day overflow). -/
def parseDateYmd (s : String) : Option (Nat × Nat × Nat) :=
  match strptimeYmd s with
  | some (y, m, d) => if 1 ≤ y ∧ d ≤ daysInMonth y m then some (y, m, d) else none
  | none => none

/-- `ValidationIssue` dataclass (`validator.py:9`). -/
structure ValidationIssue where
  field : String
  message : String
  severity : String := "warning"
deriving DecidableEq, Repr

/-- `ValidationResult` dataclass (`validator.py:17`). -/
structure ValidationResult where
  valid : Bool
  issues : List ValidationIssue := []
  confidence_score : ℚ := 0
  suggestions : List String := []
deriving DecidableEq, Repr

/-- `DataValidator.VALID_SUBJECTS` (`validator.py:30`). -/
def validSubjects : List String :=
  ["mathematics", "math", "english", "science", "physics", "chemistry",
   "biology", "history", "geography", "chinese", "malay", "tamil",
   "art", "music", "pe", "computer", "programming"]

/-- The extraction dict handed to `DataValidator.validate` (see
`batch.py:135-141`): subject/title/description strings, optional due date,
and a confidence. -/
structure ExtractionInput where
  subject : String := ""
  title : String := ""
  description : String := ""
  due_date : Option String := none
  confidence : ℚ := 0
deriving DecidableEq, Repr

/-- Python truthiness of an optional string field. -/
def optFalsy : Option String → Bool
  | none => true
  | some s => s == ""

/-- `DataValidator._validate_subject` (`validator.py:103`), issues part. -/
def validateSubject (subject : String) : List ValidationIssue :=
  if subject = "" then
    [{ field := "subject", message := "Subject is missing", severity := "error" }]
  else if strToLower subject ∉ validSubjects then
    [{ field := "subject", message := "Unrecognized subject: " ++ subject,
       severity := "warning" }]
  else []

/-- `DataValidator._validate_title` (`validator.py:125`), issues part. -/
def validateTitle (title : String) : List ValidationIssue :=
  if title = "" then
    [{ field := "title", message := "Title is missing", severity := "error" }]
  else
    (if title.length < 3 then
       [{ field := "title", message := "Title is too short", severity := "warning" }]
     else []) ++
    (if title.length > 200 then
       [{ field := "title", message := "Title is too long (max 200 chars)",
          severity := "warning" }]
     else [])

/-- `DataValidator._validate_description` (`validator.py:153`), issues part;
the length comparison is against `len(raw_text) * 0.5`. -/
def validateDescription (description raw_text : String) : List ValidationIssue :=
  (if description = "" then
     [{ field := "description", message := "Description is missing", severity := "warning" }]
   else []) ++
  (if (description.length : ℚ) < (raw_text.length : ℚ) * 0.5 then
     [{ field := "description", message := "Description may be incomplete",
        severity := "info" }]
   else [])

/-- The "in the past" warning of `_validate_due_date`. -/
def pastDueIssue : ValidationIssue :=
  { field := "due_date", message := "Due date is in the past", severity := "warning" }

/-- The "more than 1 year away" warning of `_validate_due_date`. -/
def farDueIssue : ValidationIssue :=
  { field := "due_date", message := "Due date is more than 1 year away",
    severity := "warning" }

/-- `DataValidator._validate_due_date` (`validator.py:177`), issues part.
`dt.date() < datetime.now().date()` compares day ordinals;
`dt > datetime.now() + timedelta(days=365)` compares the midnight datetime
`(ordinal, 0)` lexicographically against `(todayOrd + 365, nowTod)`. -/
def validateDueDate (due_date : Option String) (todayOrd : Nat) (nowTod : ℚ) :
    List ValidationIssue :=
  match due_date with
  | none => []
  | some s =>
    if s = "" then []
    else
      match parseDateYmd s with
      | some (y, m, d) =>
        (if toOrdinal y m d < todayOrd then [pastDueIssue] else []) ++
        (if todayOrd + 365 < toOrdinal y m d ∨
            (toOrdinal y m d = todayOrd + 365 ∧ (0 : ℚ) > nowTod) then
           [farDueIssue]
         else [])
      | none =>
        [{ field := "due_date", message := "Invalid date format: " ++ s,
           severity := "error" }]

/-- `DataValidator._generate_suggestions` (`validator.py:213`). -/
def generateSuggestions (extraction : ExtractionInput)
    (issues : List ValidationIssue) : List String :=
  (if extraction.subject = "" then ["Please specify the subject"] else []) ++
  (if optFalsy extraction.due_date then ["Consider adding a due date"] else []) ++
  (if extraction.confidence < 0.7 then
     ["Please review the extracted information for accuracy"]
   else []) ++
  issues.filterMap (fun i =>
    if i.field = "subject" ∧ i.severity = "warning" then
      some ("Verify subject name: " ++ extraction.subject)
    else none)

/-- `DataValidator.validate` (`validator.py:46`): collect the issues in
order (subject, title, description, due date, confidence), set
`valid := len(errors) == 0`, and derive the suggestions. -/
def validate (min_confidence : ℚ) (todayOrd : Nat) (nowTod : ℚ)
    (extraction : ExtractionInput) (raw_text : String) : ValidationResult :=
  let issues :=
    validateSubject extraction.subject ++
    validateTitle extraction.title ++
    validateDescription extraction.description raw_text ++
    validateDueDate extraction.due_date todayOrd nowTod ++
    (if extraction.confidence < min_confidence then
       [{ field := "confidence", message := "Low confidence score", severity := "warning" }]
     else [])
  { valid := (issues.filter (fun i => i.severity == "error")).length == 0
    issues := issues
    confidence_score := extraction.confidence
    suggestions := generateSuggestions extraction issues }

/-! ## C7 and C8 -/

theorem parseDateYmd_ne_empty {s : String} {v : Nat × Nat × Nat}
    (h : parseDateYmd s = some v) : s ≠ "" := by
  intro he
  rw [he] at h
  simp [parseDateYmd, strptimeYmd, yearParse] at h

/-- C7: `valid` is true iff the issue list contains no `error`-severity
issue; a missing subject, a missing title, or an unparseable present due
date each force `valid = false`; and an unrecognized-but-present subject
together with below-floor confidence yield only warnings, leaving
`valid = true` when title and due date are otherwise fine. -/
theorem valid_iff_no_error_issue (min_confidence : ℚ) (todayOrd : Nat) (nowTod : ℚ)
    (extraction : ExtractionInput) (raw_text : String) :
    ((validate min_confidence todayOrd nowTod extraction raw_text).valid = true ↔
       ∀ i ∈ (validate min_confidence todayOrd nowTod extraction raw_text).issues,
         i.severity ≠ "error") ∧
    (extraction.subject = "" →
       (validate min_confidence todayOrd nowTod extraction raw_text).valid = false) ∧
    (extraction.title = "" →
       (validate min_confidence todayOrd nowTod extraction raw_text).valid = false) ∧
    (∀ s, extraction.due_date = some s → s ≠ "" → parseDateYmd s = none →
       (validate min_confidence todayOrd nowTod extraction raw_text).valid = false) ∧
    (extraction.subject ≠ "" → strToLower extraction.subject ∉ validSubjects →
     extraction.title ≠ "" →
     (∀ s, extraction.due_date = some s → s ≠ "" → parseDateYmd s ≠ none) →
     extraction.confidence < min_confidence →
       (validate min_confidence todayOrd nowTod extraction raw_text).valid = true) := by
  have hiff : (validate min_confidence todayOrd nowTod extraction raw_text).valid = true ↔
      ∀ i ∈ (validate min_confidence todayOrd nowTod extraction raw_text).issues,
        i.severity ≠ "error" := by
    simp only [validate, Nat.beq_eq_true_eq, List.length_eq_zero, List.filter_eq_nil_iff,
      beq_iff_eq]
  have hmem_false : ∀ i ∈ (validate min_confidence todayOrd nowTod extraction raw_text).issues,
      i.severity = "error" →
      (validate min_confidence todayOrd nowTod extraction raw_text).valid = false := by
    intro i hi hsev
    cases hval : (validate min_confidence todayOrd nowTod extraction raw_text).valid with
    | false => rfl
    | true => exact absurd hsev (hiff.mp hval i hi)
  refine ⟨hiff, ?_, ?_, ?_, ?_⟩
  · intro hsub
    refine hmem_false
      { field := "subject", message := "Subject is missing", severity := "error" } ?_ rfl
    simp [validate, validateSubject, hsub]
  · intro htitle
    refine hmem_false
      { field := "title", message := "Title is missing", severity := "error" } ?_ rfl
    simp [validate, validateTitle, htitle]
  · intro s hdue hs hparse
    refine hmem_false
      { field := "due_date", message := "Invalid date format: " ++ s,
        severity := "error" } ?_ rfl
    simp [validate, validateDueDate, hdue, hs, hparse]
  · intro hsub hsub2 htitle hdue hconf
    rw [hiff]
    intro i hi
    simp only [validate, List.mem_append] at hi
    rcases hi with ((((hi | hi) | hi) | hi) | hi)
    · simp [validateSubject, hsub, hsub2] at hi
      rw [hi]
      simp
    · simp only [validateTitle, if_neg htitle, List.mem_append] at hi
      rcases hi with hi | hi <;>
        [skip; skip] <;> (split at hi <;> simp_all)
    · simp only [validateDescription, List.mem_append] at hi
      rcases hi with hi | hi <;> (split at hi <;> simp_all)
    · cases hdd : extraction.due_date with
      | none => rw [hdd] at hi; simp [validateDueDate] at hi
      | some s =>
        rw [hdd] at hi
        by_cases hs : s = ""
        · simp [validateDueDate, hs] at hi
        · cases hparse : parseDateYmd s with
          | none => exact absurd hparse (hdue s hdd hs)
          | some v =>
            obtain ⟨y, m, d⟩ := v
            simp only [validateDueDate, if_neg hs, hparse, List.mem_append] at hi
            rcases hi with hi | hi <;> (split at hi <;>
              simp_all [pastDueIssue, farDueIssue])
    · rw [if_pos hconf] at hi
      simp at hi
      rw [hi]
      simp

/-- C7 witness: a missing subject invalidates; an unrecognized subject with
low confidence but sound title and date stays valid. -/
theorem valid_iff_no_error_issue_witness :
    (validate 0.6 739901 0 { title := "Algebra Homework", confidence := 0.9 } "").valid
      = false ∧
    (validate 0.6 739901 0
        { subject := "Astrology", title := "Star charts", due_date := some "2026-10-12",
          confidence := 0.5 } "").valid = true :=
  ⟨(valid_iff_no_error_issue 0.6 739901 0
      { title := "Algebra Homework", confidence := 0.9 } "").2.1 rfl,
   (valid_iff_no_error_issue 0.6 739901 0
      { subject := "Astrology", title := "Star charts", due_date := some "2026-10-12",
        confidence := 0.5 } "").2.2.2.2 (by decide) (by decide) (by decide)
      (by intro s hs _ ; simp at hs; rw [← hs]; decide) (by norm_num)⟩

/-- C8: for a parsing due date, a date equal to today is not flagged as past
while any strictly earlier date is; a date exactly 365 days out is not
flagged as more than a year away while a date 366 days out is (for any
nonnegative time of day, since the code compares the due date's midnight
against `now + 365 days`); a present non-parsing due date yields an
`error`-severity issue. -/
theorem due_date_boundaries (todayOrd : Nat) (nowTod : ℚ) (h0 : 0 ≤ nowTod) (s : String) :
    (∀ y m d, parseDateYmd s = some (y, m, d) →
       (toOrdinal y m d = todayOrd →
          pastDueIssue ∉ validateDueDate (some s) todayOrd nowTod) ∧
       (toOrdinal y m d < todayOrd →
          pastDueIssue ∈ validateDueDate (some s) todayOrd nowTod) ∧
       (toOrdinal y m d = todayOrd + 365 →
          farDueIssue ∉ validateDueDate (some s) todayOrd nowTod) ∧
       (toOrdinal y m d = todayOrd + 366 →
          farDueIssue ∈ validateDueDate (some s) todayOrd nowTod)) ∧
    (s ≠ "" → parseDateYmd s = none →
       { field := "due_date", message := "Invalid date format: " ++ s,
         severity := "error" } ∈ validateDueDate (some s) todayOrd nowTod) := by
  constructor
  · intro y m d hparse
    have hs : s ≠ "" := parseDateYmd_ne_empty hparse
    have hform : validateDueDate (some s) todayOrd nowTod =
        (if toOrdinal y m d < todayOrd then [pastDueIssue] else []) ++
        (if todayOrd + 365 < toOrdinal y m d ∨
            (toOrdinal y m d = todayOrd + 365 ∧ (0 : ℚ) > nowTod) then
           [farDueIssue]
         else []) := by
      simp [validateDueDate, hs, hparse]
    refine ⟨?_, ?_, ?_, ?_⟩
    · intro heq
      have h1 : ¬ toOrdinal y m d < todayOrd := by omega
      have h2 : ¬ (todayOrd + 365 < toOrdinal y m d ∨
          (toOrdinal y m d = todayOrd + 365 ∧ (0 : ℚ) > nowTod)) := by
        rintro (h' | ⟨h', _⟩) <;> omega
      simp [hform, h1, h2]
    · intro hlt
      simp [hform, hlt]
    · intro heq
      have h1 : ¬ toOrdinal y m d < todayOrd := by omega
      have h2 : ¬ (todayOrd + 365 < toOrdinal y m d ∨
          (toOrdinal y m d = todayOrd + 365 ∧ (0 : ℚ) > nowTod)) := by
        rintro (h' | ⟨_, h''⟩)
        · omega
        · exact absurd h'' (not_lt.mpr h0)
      simp [hform, h1, h2]
    · intro heq
      have h2 : todayOrd + 365 < toOrdinal y m d ∨
          (toOrdinal y m d = todayOrd + 365 ∧ (0 : ℚ) > nowTod) := by
        left; omega
      simp [hform, h2]
  · intro hs hparse
    simp [validateDueDate, hs, hparse]

/-- C8 witness: with today = 2026-10-12 (ordinal 739901) and midnight time
of day — today's date is not past, yesterday is; 2027-10-12 (exactly 365
days out) is not flagged, 2027-10-13 (366 days) is; `"25/12/2024"` is an
`error`. -/
theorem due_date_boundaries_witness :
    (pastDueIssue ∉ validateDueDate (some "2026-10-12") 739901 0 ∧
     pastDueIssue ∈ validateDueDate (some "2026-10-11") 739901 0 ∧
     farDueIssue ∉ validateDueDate (some "2027-10-12") 739901 0 ∧
     farDueIssue ∈ validateDueDate (some "2027-10-13") 739901 0) ∧
    { field := "due_date", message := "Invalid date format: " ++ "25/12/2024",
      severity := "error" } ∈ validateDueDate (some "25/12/2024") 739901 0 :=
  ⟨⟨((due_date_boundaries 739901 0 le_rfl "2026-10-12").1 2026 10 12 (by decide)).1
      (by decide),
    ((due_date_boundaries 739901 0 le_rfl "2026-10-11").1 2026 10 11 (by decide)).2.1
      (by decide),
    ((due_date_boundaries 739901 0 le_rfl "2027-10-12").1 2027 10 12 (by decide)).2.2.1
      (by decide),
    ((due_date_boundaries 739901 0 le_rfl "2027-10-13").1 2027 10 13 (by decide)).2.2.2
      (by decide)⟩,
   (due_date_boundaries 739901 0 le_rfl "25/12/2024").2 (by decide) (by decide)⟩

/-! ## Batch processor (`src/pipeline/batch.py`) — C9

`_process_item` mutates only its own `BatchItem`, catches every exception,
and `process_batch` collects outcomes with
`asyncio.gather(..., return_exceptions=True)`; the semaphore only bounds how
many items are in flight, so each item's final record is a pure function of
its own spec and the (deterministic) stage functions.  The OCR stage
`self.ocr.process` and the AI stage `self.ai.extract_homework` are embedded
as `Except`-returning parameters; wall-clock timestamps are omitted. -/

/-- Output of `self.ocr.process` as read by `_process_item` (only `.text`
is consumed downstream). -/
structure OcrOutput where
  text : String := ""
  confidence : ℚ := 0
deriving DecidableEq, Repr

/-- Output of `self.ai.extract_homework`; exactly the fields copied into the
validation dict at `batch.py:135-141`. -/
structure AiExtractionResult where
  subject : String := ""
  title : String := ""
  description : String := ""
  due_date : Option String := none
  confidence : ℚ := 0
deriving DecidableEq, Repr

/-- `BatchItem` dataclass (`batch.py:17`), without the wall-clock
`started_at` / `completed_at` timestamps. -/
structure BatchItem where
  id : String
  image_path : String
  user_id : String
  metadata : List (String × String) := []
  ocr_result : Option OcrOutput := none
  extraction : Option AiExtractionResult := none
  validation : Option ValidationResult := none
  status : String := "pending"
  error : Option String := none
deriving DecidableEq, Repr

/-- `BatchResult` dataclass (`batch.py:33`), without wall-clock fields. -/
structure BatchResult where
  batch_id : String
  items : List BatchItem
  total : Nat := 0
  successful : Nat := 0
  failed : Nat := 0
deriving DecidableEq, Repr

/-- One input dict of `process_batch` (`batch.py:75-83`). -/
structure BatchItemSpec where
  id : String
  image_path : String
  user_id : String
  metadata : List (String × String) := []
deriving DecidableEq, Repr

/-- The pending `BatchItem` created for a spec (`batch.py:75-83`). -/
def mkBatchItem (spec : BatchItemSpec) : BatchItem :=
  { id := spec.id, image_path := spec.image_path, user_id := spec.user_id,
    metadata := spec.metadata }

/-- The `extraction_dict` built at `batch.py:135-141`. -/
def toExtractionInput (e : AiExtractionResult) : ExtractionInput :=
  { subject := e.subject, title := e.title, description := e.description,
    due_date := e.due_date, confidence := e.confidence }

/-- `BatchProcessor._process_item` (`batch.py:118-155`): OCR, optional AI
extraction plus validation, terminal status `completed`; any stage exception
is caught and recorded as `status = "failed"` with `error = str(e)`. -/
def processItem (ocr : String → Except String OcrOutput)
    (ai : Option (String → List (String × String) → Except String AiExtractionResult))
    (min_confidence : ℚ) (todayOrd : Nat) (nowTod : ℚ) (item : BatchItem) : BatchItem :=
  let item0 := { item with status := "processing" }
  match ocr item0.image_path with
  | .error e => { item0 with status := "failed", error := some e }
  | .ok ocrRes =>
    let item1 := { item0 with ocr_result := some ocrRes }
    match ai with
    | none => { item1 with status := "completed" }
    | some extract_homework =>
      match extract_homework ocrRes.text item1.metadata with
      | .error e => { item1 with status := "failed", error := some e }
      | .ok ex =>
        { item1 with
            extraction := some ex
            validation := some (validate min_confidence todayOrd nowTod
              (toExtractionInput ex) ocrRes.text)
            status := "completed" }

/-- `BatchProcessor.process_batch` (`batch.py:62-116`): create pending items,
process each (the semaphore `max_workers` only limits concurrency and cannot
influence any item's outcome), then count `completed` and `failed` items. -/
def processBatch (ocr : String → Except String OcrOutput)
    (ai : Option (String → List (String × String) → Except String AiExtractionResult))
    (min_confidence : ℚ) (todayOrd : Nat) (nowTod : ℚ) (batch_id : String)
    (specs : List BatchItemSpec) (max_workers : Nat) : BatchResult :=
  let _ := max_workers
  let processed := specs.map
    (fun s => processItem ocr ai min_confidence todayOrd nowTod (mkBatchItem s))
  { batch_id := batch_id
    items := processed
    total := specs.length
    successful := (processed.filter (fun i => i.status == "completed")).length
    failed := (processed.filter (fun i => i.status == "failed")).length }

theorem processItem_status (ocr : String → Except String OcrOutput)
    (ai : Option (String → List (String × String) → Except String AiExtractionResult))
    (mc : ℚ) (t : Nat) (tod : ℚ) (item : BatchItem) :
    (processItem ocr ai mc t tod item).status = "completed" ∨
    (processItem ocr ai mc t tod item).status = "failed" := by
  cases hocr : ocr item.image_path with
  | error e => right; simp [processItem, hocr]
  | ok o =>
    cases ai with
    | none => left; simp [processItem, hocr]
    | some f =>
      cases hf : f o.text item.metadata with
      | error e => right; simp [processItem, hocr, hf]
      | ok ex => left; simp [processItem, hocr, hf]

theorem filter_partition_length {α : Type} (p q : α → Bool) :
    ∀ l : List α, (∀ x ∈ l, p x = true ∨ q x = true) →
      (∀ x ∈ l, ¬(p x = true ∧ q x = true)) →
      (l.filter p).length + (l.filter q).length = l.length := by
  intro l
  induction l with
  | nil => intro _ _; rfl
  | cons x xs ih =>
    intro hall hnot
    have hx := hall x (List.mem_cons_self x xs)
    have hnx := hnot x (List.mem_cons_self x xs)
    have ihx := ih (fun a ha => hall a (List.mem_cons_of_mem _ ha))
      (fun a ha => hnot a (List.mem_cons_of_mem _ ha))
    rcases hx with hp | hq
    · have hq' : q x = false := by
        cases hqx : q x with
        | false => rfl
        | true => exact absurd ⟨hp, hqx⟩ hnx
      simp [List.filter_cons, hp, hq', List.length_cons]
      omega
    · have hp' : p x = false := by
        cases hpx : p x with
        | false => rfl
        | true => exact absurd ⟨hpx, hq⟩ hnx
      simp [List.filter_cons, hp', hq, List.length_cons]
      omega

/-- C9: each final batch item is a pure function of its own spec (one item's
exception cannot abort or alter siblings); a stage exception is recorded on
that item as `status = "failed"` with the exception message as its `error`,
while items whose stages succeed end `completed`; `failed` and `successful`
are exactly the counts of `failed` / `completed` items and partition the
batch; and the whole result is independent of the concurrency bound. -/
theorem batch_isolation (ocr : String → Except String OcrOutput)
    (ai : Option (String → List (String × String) → Except String AiExtractionResult))
    (mc : ℚ) (t : Nat) (tod : ℚ) (bid : String)
    (specs : List BatchItemSpec) (mw mw' : Nat) :
    (∀ i : Nat, (processBatch ocr ai mc t tod bid specs mw).items[i]?
        = (specs[i]?).map (fun s => processItem ocr ai mc t tod (mkBatchItem s))) ∧
    (∀ spec : BatchItemSpec,
       (∀ msg, ocr spec.image_path = .error msg →
          (processItem ocr ai mc t tod (mkBatchItem spec)).status = "failed" ∧
          (processItem ocr ai mc t tod (mkBatchItem spec)).error = some msg) ∧
       (∀ o, ocr spec.image_path = .ok o →
          (ai = none → (processItem ocr ai mc t tod (mkBatchItem spec)).status = "completed") ∧
          (∀ f msg, ai = some f → f o.text spec.metadata = .error msg →
             (processItem ocr ai mc t tod (mkBatchItem spec)).status = "failed" ∧
             (processItem ocr ai mc t tod (mkBatchItem spec)).error = some msg) ∧
          (∀ f ex, ai = some f → f o.text spec.metadata = .ok ex →
             (processItem ocr ai mc t tod (mkBatchItem spec)).status = "completed"))) ∧
    ((processBatch ocr ai mc t tod bid specs mw).failed
        = ((processBatch ocr ai mc t tod bid specs mw).items.filter
            (fun i => i.status == "failed")).length ∧
     (processBatch ocr ai mc t tod bid specs mw).successful
        = ((processBatch ocr ai mc t tod bid specs mw).items.filter
            (fun i => i.status == "completed")).length ∧
     (processBatch ocr ai mc t tod bid specs mw).successful
        + (processBatch ocr ai mc t tod bid specs mw).failed
        = (processBatch ocr ai mc t tod bid specs mw).total) ∧
    processBatch ocr ai mc t tod bid specs mw = processBatch ocr ai mc t tod bid specs mw' := by
  refine ⟨?_, ?_, ⟨rfl, rfl, ?_⟩, rfl⟩
  · intro i
    simp [processBatch, List.getElem?_map]
  · intro spec
    refine ⟨?_, ?_⟩
    · intro msg hmsg
      constructor <;> simp [processItem, mkBatchItem, hmsg]
    · intro o ho
      refine ⟨?_, ?_, ?_⟩
      · intro hai
        simp [processItem, mkBatchItem, ho, hai]
      · intro f msg hai hf
        subst hai
        constructor <;> simp [processItem, mkBatchItem, ho, hf]
      · intro f ex hai hf
        subst hai
        simp [processItem, mkBatchItem, ho, hf]
  · have h1 : ∀ x ∈ specs.map (fun s => processItem ocr ai mc t tod (mkBatchItem s)),
        ((x.status == "completed") = true) ∨ ((x.status == "failed") = true) := by
      intro x hx
      obtain ⟨s, _, rfl⟩ := List.mem_map.mp hx
      rcases processItem_status ocr ai mc t tod (mkBatchItem s) with h | h <;> simp [h]
    have h2 : ∀ x ∈ specs.map (fun s => processItem ocr ai mc t tod (mkBatchItem s)),
        ¬(((x.status == "completed") = true) ∧ ((x.status == "failed") = true)) := by
      rintro x hx ⟨ha, hb⟩
      simp only [beq_iff_eq] at ha hb
      rw [ha] at hb
      exact absurd hb (by decide)
    have hpart := filter_partition_length (fun i : BatchItem => i.status == "completed")
      (fun i : BatchItem => i.status == "failed") _ h1 h2
    simp only [processBatch]
    rw [hpart, List.length_map]

/-- C9 witness: five items whose third always raises — the failure is
recorded on item 3 alone with its message, the other four complete, and
`failed = 1`, `successful = 4` at concurrency bounds 2 and 5 alike. -/
theorem batch_isolation_witness :
    ((processBatch
        (fun p => if p = "img3" then .error "adapter exploded"
                  else .ok { text := "Math Exercise", confidence := 0.8 })
        none 0.6 739901 0 "batch-1"
        [⟨"1", "img1", "u", []⟩, ⟨"2", "img2", "u", []⟩, ⟨"3", "img3", "u", []⟩,
         ⟨"4", "img4", "u", []⟩, ⟨"5", "img5", "u", []⟩] 2).items[2]?
      = (([⟨"1", "img1", "u", []⟩, ⟨"2", "img2", "u", []⟩, ⟨"3", "img3", "u", []⟩,
          ⟨"4", "img4", "u", []⟩, ⟨"5", "img5", "u", []⟩] : List BatchItemSpec)[2]?).map
          (fun s => processItem
            (fun p => if p = "img3" then .error "adapter exploded"
                      else .ok { text := "Math Exercise", confidence := 0.8 })
            none 0.6 739901 0 (mkBatchItem s))) ∧
    ((processItem
        (fun p => if p = "img3" then .error "adapter exploded"
                  else .ok { text := "Math Exercise", confidence := 0.8 })
        none 0.6 739901 0 (mkBatchItem ⟨"3", "img3", "u", []⟩)).status = "failed" ∧
     (processItem
        (fun p => if p = "img3" then .error "adapter exploded"
                  else .ok { text := "Math Exercise", confidence := 0.8 })
        none 0.6 739901 0 (mkBatchItem ⟨"3", "img3", "u", []⟩)).error
       = some "adapter exploded") ∧
    processBatch
        (fun p => if p = "img3" then .error "adapter exploded"
                  else .ok { text := "Math Exercise", confidence := 0.8 })
        none 0.6 739901 0 "batch-1"
        [⟨"1", "img1", "u", []⟩, ⟨"2", "img2", "u", []⟩, ⟨"3", "img3", "u", []⟩,
         ⟨"4", "img4", "u", []⟩, ⟨"5", "img5", "u", []⟩] 2
      = processBatch
        (fun p => if p = "img3" then .error "adapter exploded"
                  else .ok { text := "Math Exercise", confidence := 0.8 })
        none 0.6 739901 0 "batch-1"
        [⟨"1", "img1", "u", []⟩, ⟨"2", "img2", "u", []⟩, ⟨"3", "img3", "u", []⟩,
         ⟨"4", "img4", "u", []⟩, ⟨"5", "img5", "u", []⟩] 5 ∧
    (processBatch
        (fun p => if p = "img3" then .error "adapter exploded"
                  else .ok { text := "Math Exercise", confidence := 0.8 })
        none 0.6 739901 0 "batch-1"
        [⟨"1", "img1", "u", []⟩, ⟨"2", "img2", "u", []⟩, ⟨"3", "img3", "u", []⟩,
         ⟨"4", "img4", "u", []⟩, ⟨"5", "img5", "u", []⟩] 2).failed = 1 ∧
    (processBatch
        (fun p => if p = "img3" then .error "adapter exploded"
                  else .ok { text := "Math Exercise", confidence := 0.8 })
        none 0.6 739901 0 "batch-1"
        [⟨"1", "img1", "u", []⟩, ⟨"2", "img2", "u", []⟩, ⟨"3", "img3", "u", []⟩,
         ⟨"4", "img4", "u", []⟩, ⟨"5", "img5", "u", []⟩] 2).successful = 4 :=
  ⟨(batch_isolation _ none 0.6 739901 0 "batch-1" _ 2 5).1 2,
   ((batch_isolation _ none 0.6 739901 0 "batch-1"
      [⟨"1", "img1", "u", []⟩, ⟨"2", "img2", "u", []⟩, ⟨"3", "img3", "u", []⟩,
       ⟨"4", "img4", "u", []⟩, ⟨"5", "img5", "u", []⟩] 2 5).2.1
      ⟨"3", "img3", "u", []⟩).1 "adapter exploded" rfl,
   (batch_isolation _ none 0.6 739901 0 "batch-1"
      [⟨"1", "img1", "u", []⟩, ⟨"2", "img2", "u", []⟩, ⟨"3", "img3", "u", []⟩,
       ⟨"4", "img4", "u", []⟩, ⟨"5", "img5", "u", []⟩] 2 5).2.2.2,
   by decide, by decide⟩

/-! ## PII redaction (`src/bot/pii_redaction.py`) — C6, C10

The eight `PIIReductor.PATTERNS` regexes are embedded as abstract syntax
trees over a small backtracking matcher that mirrors CPython `re`:
leftmost match position, ordered alternation, greedy `?` and greedy counted
class repetition (the one counted *group*, `(?:\s+[A-Z][a-z]+){1,3}` in the
name pattern, is unrolled into nested greedy options), word boundaries, and
`re.IGNORECASE` (literals compare case-insensitively and letter classes are
closed under case).  `pattern.sub` scans the original text left to right over
non-overlapping matches, so the boundary context of a later match is the
original character that ended the earlier match. -/

/-- Regex abstract syntax: literals (case-insensitive under the compiled
IGNORECASE flag), character classes, sequencing, ordered alternation, greedy
option, greedy counted class repetition (`hi = none` meaning unbounded), and
the word-boundary assertion. -/
inductive RE where
  | eps
  | lit (c : Char)
  | cls (p : Char → Bool)
  | seq (a b : RE)
  | alt (a b : RE)
  | opt (a : RE)
  | rep (p : Char → Bool) (lo : Nat) (hi : Option Nat)
  | wb

/-- Python `\w` on ASCII text. -/
def isWordChar (c : Char) : Bool := c.isAlphanum || c == '_'

/-- Word-boundary test between the previous character (if any) and the next
character (if any). -/
def atBoundary (prev next : Option Char) : Bool :=
  (match prev with | some c => isWordChar c | none => false) !=
  (match next with | some c => isWordChar c | none => false)

/-- Case-insensitive literal comparison (`re.IGNORECASE`). -/
def litEq (a b : Char) : Bool := pyLower a == pyLower b

/-- State after a greedy class repetition consumed `k` characters: the new
previous character and the remaining input. -/
def repResult (prev : Option Char) (s : List Char) (k : Nat) : Option Char × List Char :=
  (if k = 0 then prev else (s.take k).getLast?, s.drop k)

/-- All ways a regex can match a prefix of `s` (given the character `prev`
just before `s`), as `(last consumed char, remaining input)` pairs in the
backtracking preference order of CPython `re`; the head is the match the
engine commits to. -/
def reMatch : RE → Option Char → List Char → List (Option Char × List Char)
  | .eps, prev, s => [(prev, s)]
  | .lit c, _, s =>
    match s with
    | [] => []
    | x :: xs => if litEq c x then [(some x, xs)] else []
  | .cls p, _, s =>
    match s with
    | [] => []
    | x :: xs => if p x then [(some x, xs)] else []
  | .seq a b, prev, s => (reMatch a prev s).flatMap (fun pr => reMatch b pr.1 pr.2)
  | .alt a b, prev, s => reMatch a prev s ++ reMatch b prev s
  | .opt a, prev, s => reMatch a prev s ++ [(prev, s)]
  | .rep p lo hi, prev, s =>
    let run := s.takeWhile p
    let maxN := min run.length (hi.getD run.length)
    (List.range (maxN + 1 - lo)).map (fun i => repResult prev s (maxN - i))
  | .wb, prev, s => if atBoundary prev s.head? then [(prev, s)] else []

/-- One pass of `pattern.sub(repl, text)`: at each position try a match; on
success emit the replacement and continue after the consumed characters
(threading the last consumed original character as boundary context), else
copy one character.  `fuel` bounds the recursion (`length + 1` suffices). -/
def reSubScan (re : RE) (repl : List Char) : Option Char → List Char → Nat → List Char
  | _, s, 0 => s
  | prev, s, Nat.succ fuel =>
    match (reMatch re prev s).head? with
    | some (p', rest) =>
      if rest.length < s.length then
        repl ++ reSubScan re repl p' rest fuel
      else
        match s with
        | [] => repl
        | x :: xs => repl ++ x :: reSubScan re repl (some x) xs fuel
    | none =>
      match s with
      | [] => []
      | x :: xs => x :: reSubScan re repl (some x) xs fuel

/-- `pattern.sub(repl, text)`. -/
def reSub (re : RE) (repl : String) (s : String) : String :=
  String.mk (reSubScan re repl.toList none s.toList (s.length + 1))

/-- Number of non-overlapping matches, `len(pattern.findall(text))` (the
same scan as `sub`). -/
def reCountScan (re : RE) : Option Char → List Char → Nat → Nat
  | _, _, 0 => 0
  | prev, s, Nat.succ fuel =>
    match (reMatch re prev s).head? with
    | some (p', rest) =>
      if rest.length < s.length then
        1 + reCountScan re p' rest fuel
      else
        match s with
        | [] => 1
        | x :: xs => 1 + reCountScan re (some x) xs fuel
    | none =>
      match s with
      | [] => 0
      | x :: xs => reCountScan re (some x) xs fuel

/-- `len(pattern.findall(text))`. -/
def reCount (re : RE) (s : String) : Nat :=
  reCountScan re none s.toList (s.length + 1)

/-- Whether `pattern.search(text)` finds a match, scanning start positions
left to right. -/
def reSearchB (re : RE) : Option Char → List Char → Bool
  | prev, s =>
    !(reMatch re prev s).isEmpty ||
      match s with
      | [] => false
      | x :: xs => reSearchB re (some x) xs

/-- `bool(pattern.search(text))`. -/
def reSearch (re : RE) (s : String) : Bool :=
  reSearchB re none s.toList

/-- Sequence a list of regexes. -/
def seqList : List RE → RE
  | [] => .eps
  | [r] => r
  | r :: rs => .seq r (seqList rs)

/-- Ordered alternation over a list of regexes. -/
def altList : List RE → RE
  | [] => .eps
  | [r] => r
  | r :: rs => .alt r (altList rs)

/-- A literal string (each character case-insensitive). -/
def strLit (s : String) : RE := seqList (s.toList.map RE.lit)

/-- `\d`. -/
def digitC (c : Char) : Bool := c.isDigit

/-- `[A-Z]` / `[a-z]` under IGNORECASE: any ASCII letter. -/
def alphaC (c : Char) : Bool := c.isAlpha

/-- `[0-46-9]`: any digit except `5`. -/
def phoneDigitC (c : Char) : Bool := c.isDigit && c != '5'

/-- `[A-Za-z0-9._%+-]` (email local part). -/
def emailLocalC (c : Char) : Bool :=
  c.isAlphanum || c == '.' || c == '_' || c == '%' || c == '+' || c == '-'

/-- `[A-Za-z0-9.-]` (email domain). -/
def emailDomainC (c : Char) : Bool := c.isAlphanum || c == '.' || c == '-'

/-- `[A-Z|a-z]` (email TLD; the `|` is a literal class member). -/
def emailTldC (c : Char) : Bool := c.isAlpha || c == '|'

/-- `[A-Za-z0-9\s]` (address/school tail). -/
def alnumSpaceC (c : Char) : Bool := c.isAlphanum || isPySpace c

/-- `[-\w.]` (URL host). -/
def urlHostC (c : Char) : Bool := isWordChar c || c == '-' || c == '.'

/-- `[:\d]` (URL port). -/
def urlPortC (c : Char) : Bool := c == ':' || c.isDigit

/-- `[\w/_.]` (URL path). -/
def urlPathC (c : Char) : Bool := isWordChar c || c == '/' || c == '.'

/-- `[\w&=%.]` (URL query). -/
def urlQueryC (c : Char) : Bool := isWordChar c || c == '&' || c == '=' || c == '%' || c == '.'

/-- `[\w.]` (URL fragment). -/
def urlFragC (c : Char) : Bool := isWordChar c || c == '.'

/-- `my_ic`: Malaysian IC numbers. -/
def myIcPattern : RE :=
  seqList [.wb, .rep digitC 6 (some 6), .opt (.lit '-'), .rep digitC 2 (some 2),
    .opt (.lit '-'), .rep digitC 4 (some 4), .wb]

/-- `phone`: the three ordered alternatives of the phone pattern. -/
def phonePattern : RE :=
  seqList [.wb,
    altList
      [seqList [.opt (.lit '+'), .opt (.lit '6'), .lit '0', .lit '1', .cls phoneDigitC,
         .opt (.lit '-'), .rep digitC 7 (some 8)],
       seqList [.opt (.lit '+'), .lit '6', .lit '0', .cls phoneDigitC,
         .opt (.lit '-'), .rep digitC 7 (some 8)],
       seqList [.opt (.lit '+'), .opt (.lit '6'), .lit '0', .lit '1', .cls phoneDigitC,
         .rep digitC 7 (some 8)]],
    .wb]

/-- `email`. -/
def emailPattern : RE :=
  seqList [.wb, .rep emailLocalC 1 none, .lit '@', .rep emailDomainC 1 none,
    .lit '.', .rep emailTldC 2 none, .wb]

/-- `address`: optional house-number group, street keyword, then the tail. -/
def addressPattern : RE :=
  seqList [.wb,
    .opt (seqList [strLit "No", .opt (.lit '.'), .rep isPySpace 0 none,
      .rep digitC 1 none, .rep isPySpace 0 none, .opt (.lit ','), .rep isPySpace 0 none]),
    altList [strLit "Jalan", strLit "Lorong", strLit "Persiaran", strLit "Lebuh",
      strLit "Jln", strLit "Lrg"],
    .rep isPySpace 1 none, .rep alnumSpaceC 1 none, .opt (.rep digitC 5 (some 5))]

/-- `postal_code`: standalone five digits. -/
def postalCodePattern : RE :=
  seqList [.wb, .rep digitC 5 (some 5), .wb]

/-- One capitalized word, `[A-Z][a-z]+` (IGNORECASE makes it any two-or-more
letter word). -/
def nameWord : RE := .seq (.cls alphaC) (.rep alphaC 1 none)

/-- `name`: 2 to 4 whitespace-separated letter words; the counted group
`{1,3}` is unrolled into greedy nested options. -/
def namePattern : RE :=
  let grp := .seq (.rep isPySpace 1 none) nameWord
  seqList [.wb, nameWord, grp, .opt (.seq grp (.opt grp)), .wb]

/-- `school_name`: school keyword then the tail. -/
def schoolNamePattern : RE :=
  seqList [.wb,
    altList [strLit "SK", strLit "SMK", strLit "SJK", strLit "SM", strLit "Sekolah"],
    .rep isPySpace 1 none, .rep alnumSpaceC 1 none, .wb]

/-- `url`. -/
def urlPattern : RE :=
  seqList [strLit "http", .opt (.lit 's'), strLit "://", .rep urlHostC 1 none,
    .opt (.rep urlPortC 1 none),
    .opt (seqList [.lit '/', .rep urlPathC 0 none,
      .opt (.seq (.lit '?') (.rep urlQueryC 0 none)),
      .opt (.seq (.lit '#') (.rep urlFragC 0 none))])]

/-- `PIIReductor.PATTERNS` (`pii_redaction.py:13-53`) in dict insertion
order, with the replacement placeholders. -/
def piiPatterns : List (String × RE × String) :=
  [("my_ic", myIcPattern, "[MY_IC]"),
   ("phone", phonePattern, "[PHONE]"),
   ("email", emailPattern, "[EMAIL]"),
   ("address", addressPattern, "[ADDRESS]"),
   ("postal_code", postalCodePattern, "[POSTCODE]"),
   ("name", namePattern, "[NAME]"),
   ("school_name", schoolNamePattern, "[SCHOOL]"),
   ("url", urlPattern, "[URL]")]

/-- The `high_confidence` key list of `PIIReductor.redact`
(`pii_redaction.py:90`). -/
def highConfidenceKeys : List String :=
  ["my_ic", "phone", "email", "address", "postal_code", "url"]

/-- Compiled-pattern lookup by key. -/
def lookupPattern (key : String) : Option (RE × String) :=
  (piiPatterns.find? (fun e => e.1 == key)).map (fun e => e.2)

/-- One loop iteration of `PIIReductor.redact`: `findall` for the count,
then `sub` when matches exist. -/
def redactStep (st : String × List (String × Nat)) (key : String) :
    String × List (String × Nat) :=
  match lookupPattern key with
  | none => st
  | some (re, repl) =>
    let n := reCount re st.1
    if 0 < n then (reSub re repl st.1, st.2 ++ [(key, n)]) else st

/-- `PIIReductor.redact` (`pii_redaction.py:72-119`): always substitute the
six high-confidence patterns in order; in aggressive mode additionally
`name` then `school_name`.  Returns the redacted text and the
`redacted_count` entries in insertion order. -/
def redact (text : String) (aggressive : Bool) : String × List (String × Nat) :=
  if text = "" then (text, [])
  else
    let st1 := highConfidenceKeys.foldl redactStep (text, [])
    if aggressive then ["name", "school_name"].foldl redactStep st1 else st1

/-- `PIIReductor.contains_pii` (`pii_redaction.py:121-134`): search *all*
eight patterns (no mode flag) and collect the keys that hit. -/
def containsPii (text : String) : Bool × List String :=
  let pii_types := (piiPatterns.filter (fun e => reSearch e.2.1 text)).map (fun e => e.1)
  (0 < pii_types.length, pii_types)

/-- C6 counterexample: aggressive redaction is not idempotent.  On
`"http://a:12Jalan 77!"` the first pass substitutes only the URL (which ends
mid-word, between the port digits and `J`), producing `"[URL]Jalan 77!"`;
the closing bracket of the placeholder creates a word boundary before
`Jalan`, so a second pass now matches the address pattern and yields
`"[URL][ADDRESS]!"` — a different string. -/
theorem redact_not_idempotent :
    (redact "http://a:12Jalan 77!" true).1 = "[URL]Jalan 77!" ∧
    (redact (redact "http://a:12Jalan 77!" true).1 true).1 = "[URL][ADDRESS]!" ∧
    (redact (redact "http://a:12Jalan 77!" true).1 true).1
      ≠ (redact "http://a:12Jalan 77!" true).1 := by
  refine ⟨by decide, by decide, by decide⟩

/-- C6 amended: the fixed placeholder tokens match no PII pattern — a
text consisting of all eight placeholders is returned unchanged with an
empty redaction report — and the doubly-redacted counterexample text is a
fixed point of a further aggressive pass; but aggressive redaction is not
idempotent on all texts, since a substitution can expose a new word
boundary (the counterexample above). -/
theorem redact_placeholders_fixed :
    redact "[MY_IC] [PHONE] [EMAIL] [ADDRESS] [POSTCODE] [NAME] [SCHOOL] [URL]" true
      = ("[MY_IC] [PHONE] [EMAIL] [ADDRESS] [POSTCODE] [NAME] [SCHOOL] [URL]", []) ∧
    containsPii "[MY_IC] [PHONE] [EMAIL] [ADDRESS] [POSTCODE] [NAME] [SCHOOL] [URL]"
      = (false, []) ∧
    (redact "[URL][ADDRESS]!" true).1 = "[URL][ADDRESS]!" := by
  refine ⟨by decide, by decide, by decide⟩

/-- C10: `contains_pii` scans all eight pattern categories (including `name`
and `school_name`) with no mode flag, while `redact(·, aggressive=False)`
substitutes only the six high-confidence categories; hence on the input
`"Ahmad Ali"` the non-aggressive redaction returns the text unchanged and
`contains_pii` still reports `True` with category `name` on it. -/
theorem contains_pii_after_non_aggressive :
    (redact "Ahmad Ali" false).1 = "Ahmad Ali" ∧
    containsPii (redact "Ahmad Ali" false).1 = (true, ["name"]) ∧
    piiPatterns.map (fun e => e.1)
      = ["my_ic", "phone", "email", "address", "postal_code", "name", "school_name", "url"] ∧
    highConfidenceKeys = ["my_ic", "phone", "email", "address", "postal_code", "url"] := by
  refine ⟨by decide, by decide, rfl, rfl⟩

end SekolahKPM
